import Mathlib

/-!
Verification of the depth-array-to-mesh conversion core of
`blender_npy_depth_import.py` (class `ImportNPYDepthMap`).

The numeric model uses exact rationals (ℚ) for the floating-point values of
the source; a 2D numpy array of shape (height, width) is modelled as a
`Grid`: the two dimensions plus a total function giving the element at each
(row, column) position (only positions with row < height, col < width are
meaningful).
-/

namespace NpyDepth

/-- A 2D numpy array of floats, shape (height, width): `data r c` is the
element at row `r`, column `c` (row-major, row 0 at the top). -/
structure Grid where
  height : Nat
  width : Nat
  data : Nat → Nat → ℚ

/-- All in-range elements of the grid, in row-major scan order. -/
def elemsList (g : Grid) : List ℚ :=
  (List.range g.height).flatMap fun r => (List.range g.width).map fun c => g.data r c

/-- Embedding of `np.min` over a 2D array (0 on the empty array; the code
only applies it to arrays that were checked to be 2D, and numpy raises on
zero-size input — that path is modelled separately in `execute`). -/
def npMin (g : Grid) : ℚ :=
  match elemsList g with
  | [] => 0
  | a :: l => l.foldl min a

/-- Embedding of `np.max` over a 2D array (0 on the empty array). -/
def npMax (g : Grid) : ℚ :=
  match elemsList g with
  | [] => 0
  | a :: l => l.foldl max a

/-- Embedding of `np.nan_to_num`: on finite values (all of ℚ) it is the
identity; in numpy it also returns a fresh array (copy semantics), which is
modelled at the store level in `process_depth_array_st`. -/
def nan_to_num (g : Grid) : Grid := g

/-- Elementwise application of a function to a grid — the model of numpy
broadcasting arithmetic such as `(a - m) / (M - m)` or `a * s`. -/
def gridMap (f : ℚ → ℚ) (g : Grid) : Grid :=
  ⟨g.height, g.width, fun r c => f (g.data r c)⟩

/-- Embedding of `ImportNPYDepthMap.process_depth_array` (lines 83-98):
sanitize non-finite values, linearly rescale to [0,1] when max - min > 0,
then multiply by the depth scale. -/
def process_depth_array (scale : ℚ) (g : Grid) : Grid :=
  let g1 := nan_to_num g
  let dmin := npMin g1
  let dmax := npMax g1
  let g2 := if dmax - dmin > 0 then
      gridMap (fun v => (v - dmin) / (dmax - dmin)) g1
    else g1
  gridMap (fun v => v * scale) g2

/-- A mesh vertex: 3D point with rational coordinates. -/
structure Vert where
  x : ℚ
  y : ℚ
  z : ℚ
deriving DecidableEq

/-- Embedding of the aspect-ratio normalisation of `create_depthmap_bmesh`
(lines 105-110): returns (mesh_width, mesh_height). -/
def mesh_dims (height width : Nat) : ℚ × ℚ :=
  if width > height then (1, (height : ℚ) / (width : ℚ))
  else if height > width then ((width : ℚ) / (height : ℚ), 1)
  else (1, 1)

/-- Embedding of the vertex built at output position (x, y) by
`create_depthmap_bmesh` (lines 113-123): normalised x/y, depth sampled from
source row `height - 1 - y` (the row flip). -/
def vertexAt (g : Grid) (x y : Nat) : Vert :=
  let mw := (mesh_dims g.height g.width).1
  let mh := (mesh_dims g.height g.width).2
  let xn : ℚ := if g.width > 1 then (x : ℚ) / ((g.width : ℚ) - 1) * mw else 0
  let yn : ℚ := if g.height > 1 then (y : ℚ) / ((g.height : ℚ) - 1) * mh else 0
  ⟨xn - 1/2, yn - 1/2, g.data (g.height - 1 - y) x⟩

/-- The vertex list built by the nested loops of `create_depthmap_bmesh`
(lines 113-123): y outer, x inner, so `index(x, y) = y * width + x`. -/
def bmesh_verts (g : Grid) : List Vert :=
  (List.range g.height).flatMap fun y => (List.range g.width).map fun x => vertexAt g x y

/-- The vertex indices of the quad created at cell (y, x)
(lines 130-133): v1, v2, v3, v4. -/
def quadAt (w y x : Nat) : List Nat :=
  [y * w + x, y * w + (x + 1), (y + 1) * w + (x + 1), (y + 1) * w + x]

/-- Embedding of the face-creation loop of `create_depthmap_bmesh`
(lines 127-140).  `ok y x` tells whether the `bmesh.faces.new` call for the
quad at cell (y, x) succeeds; on failure the `try/except: pass` skips that
face and the loop continues with the accumulated faces unchanged. -/
def bmesh_faces_with_failures (h w : Nat) (ok : Nat → Nat → Bool) : List (List Nat) :=
  (List.range (h - 1)).foldl
    (fun acc y =>
      (List.range (w - 1)).foldl
        (fun acc2 x => if ok y x then acc2 ++ [quadAt w y x] else acc2) acc)
    []

/-- The face list when every `faces.new` call succeeds. -/
def bmesh_faces (h w : Nat) : List (List Nat) :=
  bmesh_faces_with_failures h w fun _ _ => true

/-- Embedding of the `np.pad(..., pad_width=1, mode='constant',
constant_values=base_z)` step of `create_cube_mesh` (lines 164-166): one
ring of cells holding `np.max` of the original array is added around it. -/
def padGrid (g : Grid) : Grid :=
  let base_z := npMax g
  ⟨g.height + 2, g.width + 2, fun r c =>
    if 1 ≤ r ∧ r ≤ g.height ∧ 1 ≤ c ∧ c ≤ g.width then g.data (r - 1) (c - 1)
    else base_z⟩

/-- Embedding of the `base_verts` index sequence of `create_cube_mesh`
(lines 179-188), for a padded grid of shape (h, w):
`for y in range(h-1): append(y*w)`;
`for x in range(1, w-1): append((h-1)*w + x)`;
`for y in reversed(range(h-2)): append(y*w + (w-1))`;
`for x in reversed(range(1, w-2)): append(x)`. -/
def base_vert_indices (h w : Nat) : List Nat :=
  ((List.range (h - 1)).map fun y => y * w)
    ++ ((List.range' 1 (w - 2)).map fun x => (h - 1) * w + x)
    ++ ((List.range (h - 2)).reverse.map fun y => y * w + (w - 1))
    ++ (List.range' 1 (w - 3)).reverse

/-- The row-major indices of the vertices on the outer border of an
h × w grid (row 0, row h-1, column 0 or column w-1) — the vertex set the
spec's base-closure loop is required to visit. -/
def borderIndices (h w : Nat) : List Nat :=
  (List.range (h * w)).filter fun i =>
    decide (i / w = 0 ∨ i / w = h - 1 ∨ i % w = 0 ∨ i % w = w - 1)

/-- Result of `create_cube_mesh`: the mesh contents handed to
`bm.to_mesh` plus whether the base-face `except` branch reported an error.
The object is always returned (line 198), so the result is total. -/
structure CubeResult where
  verts : List Vert
  faces : List (List Nat)
  baseFaceErrorReported : Bool
deriving DecidableEq

/-- Embedding of `create_cube_mesh` (lines 161-198): pad the array with the
max value, build the grid bmesh over the padded array, then try to add the
single base face over existing border vertices; on failure report the error
and continue — the mesh is committed and the object returned either way.
`ok` is the success oracle for the grid quads, `baseOk` for the base face. -/
def create_cube_mesh (g : Grid) (ok : Nat → Nat → Bool) (baseOk : Bool) : CubeResult :=
  let p := padGrid g
  let gridFaces := bmesh_faces_with_failures p.height p.width ok
  if baseOk then
    ⟨bmesh_verts p, gridFaces ++ [base_vert_indices p.height p.width], false⟩
  else
    ⟨bmesh_verts p, gridFaces, true⟩

/-- Outcome of `ImportNPYDepthMap.execute` for a loaded array. -/
inductive ExecResult where
  | invalidShape
  | importError
  | finished
deriving DecidableEq

/-- Embedding of the control flow of `execute` (lines 45-81) after loading:
`ndim` is the rank of the loaded array and `g` its 2D content when
`ndim = 2`.  Rank ≠ 2 reports "Depth map must be 2D" and cancels
(`invalidShape`, lines 58-60).  A rank-2 array with a zero dimension passes
that check but `np.min` inside `process_depth_array` raises on zero-size
input; the outer `except` (lines 79-81) turns this into the generic
"Failed to import" cancellation (`importError`).  Otherwise the build
proceeds to mesh creation and finishes. -/
def execute (ndim : Nat) (g : Grid) : ExecResult :=
  if ndim ≠ 2 then .invalidShape
  else if g.height = 0 ∨ g.width = 0 then .importError
  else .finished

/-- Modelled from the spec: the spec's rejection condition for
`InvalidShape` — "array is not exactly 2-dimensional, or height < 1 or
width < 1" — stated for comparison with the shape check of `execute`. -/
def spec_invalid_shape (ndim : Nat) (g : Grid) : Bool :=
  ndim ≠ 2 || g.height < 1 || g.width < 1

/-- A mutable numpy-array store: array objects are identified by numbers
below `next`; `arrays i` is the current contents of object `i`. -/
structure Store where
  arrays : Nat → Grid
  next : Nat

/-- Allocate a fresh array object holding `g`. -/
def alloc (s : Store) (g : Grid) : Store × Nat :=
  (⟨fun n => if n = s.next then g else s.arrays n, s.next + 1⟩, s.next)

/-- Overwrite array object `i` in place. -/
def setArr (s : Store) (i : Nat) (g : Grid) : Store :=
  ⟨fun n => if n = i then g else s.arrays n, s.next⟩

/-- Embedding of `process_depth_array` at the level of array-object
identity (lines 83-98): `np.nan_to_num` returns a fresh array (its default
is `copy=True`), the broadcast expression `(a - min) / (max - min)`
allocates a fresh array, and `a *= scale` mutates the current array in
place.  Returns the final store and the id of the returned array. -/
def process_depth_array_st (scale : ℚ) (s : Store) (i : Nat) : Store × Nat :=
  let p1 := alloc s (nan_to_num (s.arrays i))
  let s1 := p1.1
  let j := p1.2
  let dmin := npMin (s1.arrays j)
  let dmax := npMax (s1.arrays j)
  let p2 := if dmax - dmin > 0 then
      alloc s1 (gridMap (fun v => (v - dmin) / (dmax - dmin)) (s1.arrays j))
    else (s1, j)
  let s2 := p2.1
  let k := p2.2
  (setArr s2 k (gridMap (fun v => v * scale) (s2.arrays k)), k)

/-! ### Helper lemmas -/

theorem length_flatMap_const {α : Type} (f : Nat → Nat → α) (n w : Nat) :
    ((List.range n).flatMap fun r => (List.range w).map (f r)).length = n * w := by
  induction n with
  | zero => simp
  | succ m ih =>
      rw [List.range_succ, List.flatMap_append, List.length_append, ih]
      simp [Nat.succ_mul]

theorem getElem?_flatMap_range {α : Type} (f : Nat → Nat → α) :
    ∀ (n : Nat) (x y w : Nat), x < w → y < n →
      ((List.range n).flatMap fun r => (List.range w).map (f r))[y * w + x]? = some (f y x) := by
  intro n
  induction n generalizing f with
  | zero => intro x y w _ hy; exact absurd hy (Nat.not_lt_zero y)
  | succ m ih =>
      intro x y w hx hy
      rw [List.range_succ_eq_map, List.flatMap_cons, List.flatMap_map]
      cases y with
      | zero =>
          rw [Nat.zero_mul, Nat.zero_add,
            List.getElem?_append_left (by simpa using hx), List.getElem?_map,
            List.getElem?_range hx]
          rfl
      | succ t =>
          have hlen : ((List.range w).map (f 0)).length ≤ (t + 1) * w + x := by
            simp [Nat.succ_mul]
            omega
          rw [List.getElem?_append_right hlen]
          have harith : (t + 1) * w + x - ((List.range w).map (f 0)).length = t * w + x := by
            simp [Nat.succ_mul]
            omega
          rw [harith]
          exact ih (fun r => f (Nat.succ r)) x t w hx (Nat.lt_of_succ_lt_succ hy)

theorem foldl_ite_append {α β : Type} (p : α → Bool) (f : α → β) :
    ∀ (l : List α) (acc : List β),
      l.foldl (fun a x => if p x then a ++ [f x] else a) acc
        = acc ++ (l.filter p).map f := by
  intro l
  induction l with
  | nil => intro acc; simp
  | cons x l ih =>
      intro acc
      by_cases hp : p x
      · simp [List.foldl_cons, hp, ih, List.filter_cons]
      · simp [List.foldl_cons, hp, ih, List.filter_cons]

theorem foldl_append_eq_flatMap {α β : Type} (g : α → List β) :
    ∀ (l : List α) (acc : List β),
      l.foldl (fun a y => a ++ g y) acc = acc ++ l.flatMap g := by
  intro l
  induction l with
  | nil => intro acc; simp
  | cons y l ih => intro acc; simp [List.foldl_cons, ih]

theorem foldl_min_map_comm (f : ℚ → ℚ) (hf : ∀ a b : ℚ, f (min a b) = min (f a) (f b)) :
    ∀ (l : List ℚ) (a : ℚ), (l.map f).foldl min (f a) = f (l.foldl min a) := by
  intro l
  induction l with
  | nil => intro a; rfl
  | cons b l ih => intro a; simp only [List.map_cons, List.foldl_cons, ← hf, ih]

theorem foldl_max_map_comm (f : ℚ → ℚ) (hf : ∀ a b : ℚ, f (max a b) = max (f a) (f b)) :
    ∀ (l : List ℚ) (a : ℚ), (l.map f).foldl max (f a) = f (l.foldl max a) := by
  intro l
  induction l with
  | nil => intro a; rfl
  | cons b l ih => intro a; simp only [List.map_cons, List.foldl_cons, ← hf, ih]

theorem foldl_min_self (a : ℚ) :
    ∀ l : List ℚ, (∀ x ∈ l, x = a) → l.foldl min a = a := by
  intro l
  induction l with
  | nil => intro _; rfl
  | cons b l ih =>
      intro hall
      have hb : b = a := hall b (List.mem_cons_self b l)
      have : ∀ x ∈ l, x = a := fun x hx => hall x (List.mem_cons_of_mem b hx)
      simp [List.foldl_cons, hb, ih this]

theorem foldl_max_self (a : ℚ) :
    ∀ l : List ℚ, (∀ x ∈ l, x = a) → l.foldl max a = a := by
  intro l
  induction l with
  | nil => intro _; rfl
  | cons b l ih =>
      intro hall
      have hb : b = a := hall b (List.mem_cons_self b l)
      have : ∀ x ∈ l, x = a := fun x hx => hall x (List.mem_cons_of_mem b hx)
      simp [List.foldl_cons, hb, ih this]

theorem elemsList_gridMap (f : ℚ → ℚ) (g : Grid) :
    elemsList (gridMap f g) = (elemsList g).map f := by
  simp [elemsList, gridMap, List.map_flatMap, List.map_map, Function.comp_def]

theorem mem_elemsList {g : Grid} {x : ℚ} :
    x ∈ elemsList g ↔ ∃ r, r < g.height ∧ ∃ c, c < g.width ∧ g.data r c = x := by
  simp [elemsList, List.mem_flatMap, List.mem_map, List.mem_range]

theorem elemsList_length (g : Grid) : (elemsList g).length = g.height * g.width :=
  length_flatMap_const _ _ _

theorem elemsList_ne_nil (g : Grid) (hh : 0 < g.height) (hw : 0 < g.width) :
    elemsList g ≠ [] := by
  intro hnil
  have hlen := elemsList_length g
  rw [hnil] at hlen
  simp only [List.length_nil] at hlen
  have hpos : 0 < g.height * g.width := Nat.mul_pos hh hw
  omega

theorem npMin_gridMap (f : ℚ → ℚ) (hf : Monotone f) (g : Grid)
    (hne : elemsList g ≠ []) : npMin (gridMap f g) = f (npMin g) := by
  rcases heq : elemsList g with _ | ⟨a, l⟩
  · exact absurd heq hne
  · unfold npMin
    rw [elemsList_gridMap, heq, List.map_cons]
    exact foldl_min_map_comm f (fun a b => hf.map_min) l a

theorem npMax_gridMap (f : ℚ → ℚ) (hf : Monotone f) (g : Grid)
    (hne : elemsList g ≠ []) : npMax (gridMap f g) = f (npMax g) := by
  rcases heq : elemsList g with _ | ⟨a, l⟩
  · exact absurd heq hne
  · unfold npMax
    rw [elemsList_gridMap, heq, List.map_cons]
    exact foldl_max_map_comm f (fun a b => hf.map_max) l a

theorem process_depth_array_pos (scale : ℚ) (g : Grid)
    (h : npMax g - npMin g > 0) :
    process_depth_array scale g
      = gridMap (fun v => v * scale)
          (gridMap (fun v => (v - npMin g) / (npMax g - npMin g)) g) := by
  simp [process_depth_array, nan_to_num, h]

theorem process_depth_array_nonpos (scale : ℚ) (g : Grid)
    (h : ¬ npMax g - npMin g > 0) :
    process_depth_array scale g = gridMap (fun v => v * scale) g := by
  simp [process_depth_array, nan_to_num, h]

theorem npMin_of_const (g : Grid) (v : ℚ)
    (hall : ∀ x ∈ elemsList g, x = v) (hne : elemsList g ≠ []) :
    npMin g = v := by
  rcases heq : elemsList g with _ | ⟨a, l⟩
  · exact absurd heq hne
  · have ha : a = v := hall a (heq ▸ List.mem_cons_self a l)
    have hl : ∀ x ∈ l, x = v := fun x hx =>
      hall x (heq ▸ List.mem_cons_of_mem a hx)
    simp only [npMin, heq, ha]
    exact foldl_min_self v l hl

theorem npMax_of_const (g : Grid) (v : ℚ)
    (hall : ∀ x ∈ elemsList g, x = v) (hne : elemsList g ≠ []) :
    npMax g = v := by
  rcases heq : elemsList g with _ | ⟨a, l⟩
  · exact absurd heq hne
  · have ha : a = v := hall a (heq ▸ List.mem_cons_self a l)
    have hl : ∀ x ∈ l, x = v := fun x hx =>
      hall x (heq ▸ List.mem_cons_of_mem a hx)
    simp only [npMax, heq, ha]
    exact foldl_max_self v l hl

/-! ### Claim C1 -/

/-- A 1×1 array holding the constant 5. -/
def gC1flat : Grid := ⟨1, 1, fun _ _ => 5⟩

/-- A 2×2 array holding the constant 3. -/
def gC1 : Grid := ⟨2, 2, fun _ _ => 3⟩

/-- C1, counterexample: on the constant array `[[5]]` with scale 1,
`process_depth_array` returns 5 at position (0,0), not 0 — the claim that a
constant input yields an all-zero output regardless of the constant is
false: in the max == min case normalization is skipped and the constant is
merely multiplied by the scale. -/
theorem c1_flat_counterexample :
    (process_depth_array 1 gC1flat).data 0 0 = 5 ∧
    ¬ (process_depth_array 1 gC1flat).data 0 0 = 0 := by
  have h5 : (process_depth_array 1 gC1flat).data 0 0 = 5 := by
    simp [process_depth_array, nan_to_num, npMin, npMax, elemsList, gC1flat,
      gridMap, List.range_succ]
  refine ⟨h5, ?_⟩
  rw [h5]
  norm_num

/-- C1, amended: for every input array all of whose in-range elements equal
a constant `v`, `process_depth_array` leaves every in-range element at
`v * scale` (the max == min branch skips the rescaling, and the final
in-place multiplication by the scale factor still applies); the output is
all-zero only when `v * scale = 0`. -/
theorem c1_flat_scaled (g : Grid) (v scale : ℚ)
    (hconst : ∀ r c, r < g.height → c < g.width → g.data r c = v) :
    ∀ r c, r < g.height → c < g.width →
      (process_depth_array scale g).data r c = v * scale := by
  intro r c hr hc
  have hh : 0 < g.height := Nat.lt_of_le_of_lt (Nat.zero_le r) hr
  have hw : 0 < g.width := Nat.lt_of_le_of_lt (Nat.zero_le c) hc
  have hne := elemsList_ne_nil g hh hw
  have hall : ∀ x ∈ elemsList g, x = v := by
    intro x hx
    rcases mem_elemsList.mp hx with ⟨r0, hr0, c0, hc0, hx0⟩
    rw [← hx0]
    exact hconst r0 c0 hr0 hc0
  have hcond : ¬ npMax g - npMin g > 0 := by
    rw [npMin_of_const g v hall hne, npMax_of_const g v hall hne]
    simp
  rw [process_depth_array_nonpos scale g hcond]
  simp only [gridMap]
  rw [hconst r c hr hc]

/-- C1, witness: the amended statement evaluated on the constant 2×2 array
of 3s with scale 2. -/
theorem c1_flat_scaled_witness :
    (process_depth_array 2 gC1).data 0 0 = 3 * 2 :=
  c1_flat_scaled gC1 3 2 (fun _ _ _ _ => rfl) 0 0 (by decide) (by decide)

/-! ### Claim C3 -/

/-- The 2×2 array `[[0,1],[1,0]]`. -/
def gC3 : Grid := ⟨2, 2, fun r c => if r = c then 0 else 1⟩

/-- C3: for every nonempty 2D array whose maximum exceeds its minimum and
every positive scale factor (the operator constrains the scale to
[0.001, 1000]), the result of `process_depth_array` has minimum element 0
and maximum element equal to the scale factor — exactly, in the rational
model. -/
theorem c3_normalize_range (scale : ℚ) (g : Grid)
    (hh : 0 < g.height) (hw : 0 < g.width)
    (hlt : npMin g < npMax g) (hs : 0 < scale) :
    npMin (process_depth_array scale g) = 0 ∧
    npMax (process_depth_array scale g) = scale := by
  have hpos : 0 < npMax g - npMin g := sub_pos.mpr hlt
  have hne := elemsList_ne_nil g hh hw
  have hmonof : Monotone (fun v : ℚ => (v - npMin g) / (npMax g - npMin g)) := by
    intro a b hab
    exact (div_le_div_iff_of_pos_right hpos).mpr (sub_le_sub_right hab _)
  have hmonos : Monotone (fun v : ℚ => v * scale) := by
    intro a b hab
    exact mul_le_mul_of_nonneg_right hab hs.le
  have hne2 : elemsList
      (gridMap (fun v => (v - npMin g) / (npMax g - npMin g)) g) ≠ [] := by
    rw [elemsList_gridMap]
    simpa using hne
  rw [process_depth_array_pos scale g hpos]
  constructor
  · rw [npMin_gridMap _ hmonos _ hne2,
      npMin_gridMap _ hmonof _ hne]
    simp
  · rw [npMax_gridMap _ hmonos _ hne2,
      npMax_gridMap _ hmonof _ hne]
    simp [div_self hpos.ne']

/-- C3, witness: the array `[[0,1],[1,0]]` with scale 2 normalizes to
minimum 0 and maximum 2. -/
theorem c3_normalize_range_witness :
    npMin gC3 < npMax gC3 ∧ (0 : ℚ) < 2 ∧
    npMin (process_depth_array 2 gC3) = 0 ∧
    npMax (process_depth_array 2 gC3) = 2 := by
  refine ⟨by decide, by decide, ?_⟩
  exact c3_normalize_range 2 gC3 (by decide) (by decide) (by decide) (by decide)

/-! ### Claim C4 -/

/-- A rank-2 array of shape (0, 3): zero height, but `ndim = 2`. -/
def gC4empty : Grid := ⟨0, 3, fun _ _ => 0⟩

/-- A 1×1 array used to show the build proceeding. -/
def gC4ok : Grid := ⟨1, 1, fun _ _ => 0⟩

/-- C4, counterexample: for the rank-2 array of shape (0, 3) the spec's
rejection condition (not 2D, or height < 1, or width < 1) holds, but the
code does not signal the InvalidShape error ("Depth map must be 2D"): the
shape check only tests `ndim != 2`, and the zero-size array instead fails
later inside `process_depth_array`, surfacing as the generic import
error. -/
theorem c4_shape_check_counterexample :
    spec_invalid_shape 2 gC4empty = true ∧
    execute 2 gC4empty ≠ ExecResult.invalidShape ∧
    execute 2 gC4empty = ExecResult.importError := by
  decide

/-- C4, amended: `execute` signals InvalidShape iff the array is not
exactly 2-dimensional — height ≥ 1 / width ≥ 1 are not part of the check —
and every rank-2 array with height ≥ 1 and width ≥ 1 proceeds to the mesh
build. -/
theorem c4_shape_check_amended (ndim : Nat) (g : Grid) :
    (execute ndim g = ExecResult.invalidShape ↔ ndim ≠ 2) ∧
    (ndim = 2 → 0 < g.height → 0 < g.width →
      execute ndim g = ExecResult.finished) := by
  constructor
  · by_cases hn : ndim = 2
    · subst hn
      by_cases hz : g.height = 0 ∨ g.width = 0 <;> simp [execute, hz]
    · simp [execute, hn]
  · intro hn hh hw
    subst hn
    have hz : ¬ (g.height = 0 ∨ g.width = 0) := by omega
    simp [execute, hz]

/-- C4, witness: the amended statement evaluated at a rank-2 1×1 array. -/
theorem c4_shape_check_witness :
    execute 2 gC4ok = ExecResult.finished :=
  (c4_shape_check_amended 2 gC4ok).2 rfl (by decide) (by decide)

/-! ### Claim C5 -/

/-- A 2×3 array with pairwise distinct elements `r*10 + c`. -/
def gC5 : Grid := ⟨2, 3, fun r c => ((r * 10 + c : Nat) : ℚ)⟩

/-- C5: the vertex generated at output position (x, y) is stored at
row-major index `y * width + x` and takes its z value from source element
`array[height - 1 - y, x]`; in particular the vertex at output y = 0
samples row `height - 1`. -/
theorem c5_row_flip (g : Grid) (x y : Nat) (hx : x < g.width) (hy : y < g.height) :
    (bmesh_verts g)[y * g.width + x]? = some (vertexAt g x y) ∧
    (vertexAt g x y).z = g.data (g.height - 1 - y) x ∧
    (vertexAt g x 0).z = g.data (g.height - 1) x :=
  ⟨getElem?_flatMap_range (fun r c => vertexAt g c r) g.height x y g.width hx hy,
    rfl, rfl⟩

/-- C5, witness: the row-flip statement evaluated at x = 1, y = 0 on the
2×3 array. -/
theorem c5_row_flip_witness :
    (bmesh_verts gC5)[0 * gC5.width + 1]? = some (vertexAt gC5 1 0) ∧
    (vertexAt gC5 1 0).z = gC5.data (gC5.height - 1 - 0) 1 ∧
    (vertexAt gC5 1 0).z = gC5.data (gC5.height - 1) 1 :=
  c5_row_flip gC5 1 0 (by decide) (by decide)

/-! ### Claim C6 -/

/-- C6: the plane variant produces exactly height × width vertices; the
solid variant's vertex list is exactly the grid bmesh of the padded array,
hence has (height + 2) × (width + 2) vertices, and the base face adds no
vertex — whether or not the base face is created. -/
theorem c6_vertex_counts (g : Grid) (ok : Nat → Nat → Bool) (baseOk : Bool) :
    (bmesh_verts g).length = g.height * g.width ∧
    (create_cube_mesh g ok baseOk).verts = bmesh_verts (padGrid g) ∧
    (create_cube_mesh g ok baseOk).verts.length = (g.height + 2) * (g.width + 2) := by
  have h1 : (bmesh_verts g).length = g.height * g.width :=
    length_flatMap_const (fun r c => vertexAt g c r) g.height g.width
  have h2 : (create_cube_mesh g ok baseOk).verts = bmesh_verts (padGrid g) := by
    cases baseOk <;> rfl
  refine ⟨h1, h2, ?_⟩
  rw [h2]
  exact length_flatMap_const (fun r c => vertexAt (padGrid g) c r)
    (padGrid g).height (padGrid g).width

/-! ### Claim C7 -/

/-- A 2×4 array (height 2, width 4) of zeros. -/
def gC7 : Grid := ⟨2, 4, fun _ _ => 0⟩

/-- The vertex list of any 2×4 grid, written out: x coordinates take the
values -1/2, -1/6, 1/6, 1/2 and y coordinates the values -1/2 and 0 — the
shorter axis is compressed but not re-centred, since the code subtracts
the constant 0.5 rather than half the compressed extent. -/
theorem bmesh_verts_2x4 (d : Nat → Nat → ℚ) :
    bmesh_verts ⟨2, 4, d⟩ =
      [⟨-(1/2), -(1/2), d 1 0⟩, ⟨-(1/6), -(1/2), d 1 1⟩,
       ⟨1/6, -(1/2), d 1 2⟩, ⟨1/2, -(1/2), d 1 3⟩,
       ⟨-(1/2), 0, d 0 0⟩, ⟨-(1/6), 0, d 0 1⟩,
       ⟨1/6, 0, d 0 2⟩, ⟨1/2, 0, d 0 3⟩] := by
  simp [bmesh_verts, vertexAt, mesh_dims, List.range_succ]
  norm_num

/-- C7, counterexample: on the 2×4 grid the first generated vertex has
y coordinate -1/2, outside the claimed y span [-1/4, 1/4]: the claim's
consequence about the y range is false (the mesh_width / mesh_height
formulas themselves are as claimed). -/
theorem c7_aspect_counterexample :
    vertexAt gC7 0 0 ∈ bmesh_verts gC7 ∧
    (vertexAt gC7 0 0).y < -(1/4 : ℚ) := by
  constructor
  · unfold bmesh_verts
    refine List.mem_flatMap.mpr ⟨0, ?_, ?_⟩
    · simp [gC7]
    · exact List.mem_map.mpr ⟨0, by simp [gC7], rfl⟩
  · simp [vertexAt, mesh_dims, gC7]
    norm_num

/-- C7, amended: mesh_width and mesh_height are as the claim states
(for width 4, height 2 they are 1 and 1/2), and the x coordinates of the
generated vertices span [-1/2, 1/2]; but the y coordinates span [-1/2, 0]
(values -1/2 and 0 only), not [-1/4, 1/4]: the compressed axis is shifted
down, not centred. -/
theorem c7_aspect_amended (g : Grid) (hh : g.height = 2) (hw : g.width = 4) :
    mesh_dims g.height g.width = (1, 1/2) ∧
    (∀ v ∈ bmesh_verts g,
      v.x = -(1/2) ∨ v.x = -(1/6) ∨ v.x = 1/6 ∨ v.x = 1/2) ∧
    (∀ v ∈ bmesh_verts g, v.y = -(1/2) ∨ v.y = 0) ∧
    (∃ v ∈ bmesh_verts g, v.x = -(1/2)) ∧ (∃ v ∈ bmesh_verts g, v.x = 1/2) ∧
    (∃ v ∈ bmesh_verts g, v.y = -(1/2)) ∧ (∃ v ∈ bmesh_verts g, v.y = 0) := by
  obtain ⟨h, w, d⟩ := g
  simp only at hh hw
  subst hh
  subst hw
  rw [bmesh_verts_2x4 d]
  refine ⟨?_, ?_, ?_, ?_, ?_, ?_, ?_⟩
  · simp [mesh_dims, Prod.ext_iff]
    norm_num
  · intro v hv
    simp only [List.mem_cons, List.not_mem_nil, or_false] at hv
    rcases hv with rfl | rfl | rfl | rfl | rfl | rfl | rfl | rfl <;> norm_num
  · intro v hv
    simp only [List.mem_cons, List.not_mem_nil, or_false] at hv
    rcases hv with rfl | rfl | rfl | rfl | rfl | rfl | rfl | rfl <;> norm_num
  · exact ⟨⟨-(1/2), -(1/2), d 1 0⟩, by simp, rfl⟩
  · exact ⟨⟨1/2, -(1/2), d 1 3⟩, by simp, rfl⟩
  · exact ⟨⟨-(1/2), -(1/2), d 1 0⟩, by simp, rfl⟩
  · exact ⟨⟨-(1/2), 0, d 0 0⟩, by simp, rfl⟩

/-- C7, witness: the amended statement's aspect-ratio part evaluated on
the concrete 2×4 grid. -/
theorem c7_aspect_witness :
    gC7.height = 2 ∧ gC7.width = 4 ∧
    mesh_dims gC7.height gC7.width = (1, 1/2) :=
  ⟨rfl, rfl, (c7_aspect_amended gC7 rfl rfl).1⟩

/-! ### Claim C2 -/

/-- A 2×2 input array; padding makes the solid variant's grid 4×4. -/
def gC2 : Grid := ⟨2, 2, fun _ _ => 0⟩

/-- C2, evaluation at the failing input (2×2 input, padded grid 4×4): the
`base_verts` loop of `create_cube_mesh` appends only the 8 indices
[0, 4, 8, 13, 14, 7, 3, 1], while the outer border of the 4×4 grid has 12
vertices; the four border vertices 2 = (0,2), 11 = (2,3), 12 = (3,0) and
15 = (3,3) are omitted, so the polygon does not visit every border vertex
and the claimed simple perimeter loop is not built. -/
theorem c2_base_polygon_eval :
    (padGrid gC2).height = 4 ∧ (padGrid gC2).width = 4 ∧
    base_vert_indices 4 4 = [0, 4, 8, 13, 14, 7, 3, 1] ∧
    borderIndices 4 4 = [0, 1, 2, 3, 4, 7, 8, 11, 12, 13, 14, 15] ∧
    2 ∈ borderIndices 4 4 ∧ 2 ∉ base_vert_indices 4 4 ∧
    11 ∈ borderIndices 4 4 ∧ 11 ∉ base_vert_indices 4 4 ∧
    12 ∈ borderIndices 4 4 ∧ 12 ∉ base_vert_indices 4 4 ∧
    15 ∈ borderIndices 4 4 ∧ 15 ∉ base_vert_indices 4 4 ∧
    (base_vert_indices 4 4).length = 8 ∧
    (borderIndices 4 4).length = 12 := by
  decide

/-! ### Claim C8 -/

theorem bmesh_faces_with_failures_eq (h w : Nat) (ok : Nat → Nat → Bool) :
    bmesh_faces_with_failures h w ok
      = (List.range (h - 1)).flatMap
          (fun y => ((List.range (w - 1)).filter (fun x => ok y x)).map (quadAt w y)) := by
  unfold bmesh_faces_with_failures
  have hinner : ∀ (y : Nat) (acc : List (List Nat)),
      (List.range (w - 1)).foldl
          (fun acc2 x => if ok y x then acc2 ++ [quadAt w y x] else acc2) acc
        = acc ++ ((List.range (w - 1)).filter (fun x => ok y x)).map (quadAt w y) :=
    fun y acc => foldl_ite_append (fun x => ok y x) (quadAt w y) (List.range (w - 1)) acc
  simp only [hinner]
  rw [foldl_append_eq_flatMap]
  simp

/-- The face-success oracle failing exactly at cell (0, 0). -/
def okC8 : Nat → Nat → Bool := fun y x => !(y == 0 && x == 0)

/-- C8: whatever subset of `faces.new` calls fails, the loop swallows each
failure locally: the faces built are exactly the quads of the succeeding
cells in scan order, every face whose own call succeeds is present no
matter which other faces failed, and every built face is one of the grid's
quads — the build always returns a face list, never aborting. -/
theorem c8_face_failure_recovery (h w : Nat) (ok : Nat → Nat → Bool) :
    bmesh_faces_with_failures h w ok
      = (List.range (h - 1)).flatMap
          (fun y => ((List.range (w - 1)).filter (fun x => ok y x)).map (quadAt w y)) ∧
    (∀ y x, y < h - 1 → x < w - 1 → ok y x = true →
      quadAt w y x ∈ bmesh_faces_with_failures h w ok) ∧
    (∀ f ∈ bmesh_faces_with_failures h w ok, f ∈ bmesh_faces h w) := by
  refine ⟨bmesh_faces_with_failures_eq h w ok, ?_, ?_⟩
  · intro y x hy hx hok
    rw [bmesh_faces_with_failures_eq]
    exact List.mem_flatMap.mpr ⟨y, List.mem_range.mpr hy,
      List.mem_map.mpr ⟨x, List.mem_filter.mpr ⟨List.mem_range.mpr hx, hok⟩, rfl⟩⟩
  · intro f hf
    rw [bmesh_faces_with_failures_eq] at hf
    rcases List.mem_flatMap.mp hf with ⟨y, hy, hm⟩
    rcases List.mem_map.mp hm with ⟨x, hxf, rfl⟩
    have hx : x ∈ List.range (w - 1) := (List.mem_filter.mp hxf).1
    rw [bmesh_faces, bmesh_faces_with_failures_eq]
    refine List.mem_flatMap.mpr ⟨y, hy, List.mem_map.mpr ⟨x, ?_, rfl⟩⟩
    simpa using hx

/-- C8, witness: with the oracle that fails only at cell (0, 0) on a 3×3
grid, the face at cell (0, 1) is still created. -/
theorem c8_face_failure_recovery_witness :
    okC8 0 1 = true ∧
    quadAt 3 0 1 ∈ bmesh_faces_with_failures 3 3 okC8 :=
  ⟨by decide,
    (c8_face_failure_recovery 3 3 okC8).2.1 0 1 (by decide) (by decide) (by decide)⟩

/-! ### Claim C9 -/

/-- C9: when base-face creation fails, the error is reported
(`baseFaceErrorReported = true`, from the `except` branch around
`bm.faces.new(base_verts)`) but construction is not aborted: the vertex
list is still the full padded-grid bmesh, the grid (top + wall) faces are
all still committed, and the successful case differs only by the one extra
base face. -/
theorem c9_base_failure_nonfatal (g : Grid) (ok : Nat → Nat → Bool) :
    (create_cube_mesh g ok false).baseFaceErrorReported = true ∧
    (create_cube_mesh g ok true).baseFaceErrorReported = false ∧
    (create_cube_mesh g ok false).verts = bmesh_verts (padGrid g) ∧
    (create_cube_mesh g ok false).faces
      = bmesh_faces_with_failures (g.height + 2) (g.width + 2) ok ∧
    (create_cube_mesh g ok true).faces
      = (create_cube_mesh g ok false).faces
          ++ [base_vert_indices (g.height + 2) (g.width + 2)] :=
  ⟨rfl, rfl, rfl, rfl, rfl⟩

/-! ### Claim C10 -/

/-- A 1×2 array with elements 0, 1. -/
def gC10 : Grid := ⟨1, 2, fun _ c => (c : ℚ)⟩

/-- A store holding the single array object 0. -/
def storeC10 : Store := ⟨fun _ => gC10, 1⟩

/-- C10: `process_depth_array` never mutates the caller's array object:
`np.nan_to_num` copies, the rescaling expression allocates a fresh array,
and the in-place `*= scale` hits only the freshly allocated object, so any
valid pre-existing object `i` holds the same grid after the call; moreover
the array returned holds exactly the value of the functional
`process_depth_array`. -/
theorem c10_no_mutation (scale : ℚ) (s : Store) (i : Nat) (hi : i < s.next) :
    (process_depth_array_st scale s i).1.arrays i = s.arrays i ∧
    (process_depth_array_st scale s i).1.arrays (process_depth_array_st scale s i).2
      = process_depth_array scale (s.arrays i) := by
  have hne1 : i ≠ s.next := Nat.ne_of_lt hi
  have hne2 : i ≠ s.next + 1 := Nat.ne_of_lt (Nat.lt_succ_of_lt hi)
  by_cases hc : npMax (s.arrays i) - npMin (s.arrays i) > 0
  · constructor
    · simp [process_depth_array_st, alloc, setArr, nan_to_num, hc, hne1, hne2]
    · simp [process_depth_array_st, alloc, setArr, nan_to_num, hc,
        process_depth_array_pos _ _ hc]
  · constructor
    · simp [process_depth_array_st, alloc, setArr, nan_to_num, hc, hne1, hne2]
    · simp [process_depth_array_st, alloc, setArr, nan_to_num, hc,
        process_depth_array_nonpos _ _ hc]

/-- C10, witness: processing array object 0 of a concrete one-object store
leaves object 0 unchanged. -/
theorem c10_no_mutation_witness :
    0 < storeC10.next ∧
    (process_depth_array_st 1 storeC10 0).1.arrays 0 = storeC10.arrays 0 :=
  ⟨by decide, (c10_no_mutation 1 storeC10 0 (by decide)).1⟩

end NpyDepth
